import Mathlib

/-!
Verification of the GCP sync connectors of this repository
(cartography/intel/gcp/gcf.py and cartography/intel/gcp/storage.py).

The Python modules are shallowly embedded below: records are structures
whose `Option` fields model optional dictionary keys, fallible code
returns `Except`, the Neo4j property graph is a structure of finite
maps (functions into `Option`), and the external paginated API is a
value describing the sequence of page responses (or the HTTP error the
listing call raises).
-/

/-- Python exception classes that the embedded code can raise. -/
inductive PyErr
  | typeError
  | keyError
  deriving DecidableEq, Repr

/-- Substring occurrence on character lists: models the Python `in`
operator for strings. -/
def listContainsSub : List Char → List Char → Bool
  | l, sub =>
    sub.isPrefixOf l ||
      match l with
      | [] => false
      | _ :: t => listContainsSub t sub

/-- `strContains s sub` models Python `sub in s`. -/
def strContains (s sub : String) : Bool :=
  listContainsSub s.toList sub.toList

/-- The decoded JSON error body of a `googleapiclient.errors.HttpError`,
together with the HTTP response status (`e.resp.status`).
`status` models `err.get("status", "")` (absent key collapses to `""`);
`message` models `err.get("message")`. -/
structure HttpErr where
  status : String
  message : Option String
  respStatus : Nat
  deriving DecidableEq, Repr

/-- The recoverability test both collectors apply to an `HttpError`:
`err.get("status", "") == "PERMISSION_DENIED" or (err.get("message") and
"API has not been used" in err.get("message"))`.  A present-but-empty
message is falsy in Python, hence the emptiness test. -/
def isPermissionOrApiDisabled (e : HttpErr) : Bool :=
  e.status == "PERMISSION_DENIED" ||
    match e.message with
    | some m => (m != "") && strContains m "API has not been used"
    | none => false

/-! ## Cloud Functions: raw records (gcf.py) -/

/-- The optional `httpsTrigger` sub-document of a function record. -/
structure HttpsTrigger where
  url : Option String
  deriving DecidableEq, Repr

/-- The optional `eventTrigger` sub-document of a function record. -/
structure EventTrigger where
  eventType : Option String
  resource : Option String
  deriving DecidableEq, Repr

/-- A raw Cloud Function record as returned by the GCP API: every
top-level key the connector reads, each optional. -/
structure GCPFunction where
  name : Option String
  displayName : Option String
  description : Option String
  state : Option String
  runtime : Option String
  entryPoint : Option String
  createTime : Option String
  updateTime : Option String
  serviceAccountEmail : Option String
  httpsTrigger : Option HttpsTrigger
  eventTrigger : Option EventTrigger
  deriving DecidableEq, Repr

/-- A function record after `transform_gcp_cloud_functions` ran over it:
the original keys plus the four keys the transform assigns. -/
structure TransFunc where
  raw : GCPFunction
  https_trigger_url : Option String
  event_trigger_type : Option String
  event_trigger_resource : Option String
  region : Option String
  deriving DecidableEq, Repr

/-- Python `str.split(sep)` for a one-character separator, on the
character list: splitting the empty string yields one empty field, and
every separator occurrence opens a new field. -/
def splitOnChar (c : Char) : List Char → List (List Char)
  | [] => [[]]
  | x :: xs =>
    if x = c then [] :: splitOnChar c xs
    else
      match splitOnChar c xs with
      | [] => [[x]]
      | h :: t => (x :: h) :: t

/-- `func_data['name'].split('/')[3]`, with `IndexError`/`KeyError`
collapsed to `none` (the `except` branch assigns `None`). -/
def regionOfName (name : Option String) : Option String :=
  name.bind fun n =>
    ((splitOnChar '/' n.toList).get? 3).map (fun cs => String.mk cs)

/-- The per-record body of the transform loop: flatten the two trigger
sub-documents (`d.get('httpsTrigger', {}).get('url')` and friends) and
derive `region` from the name. -/
def addFields (f : GCPFunction) : TransFunc :=
  { raw := f
    https_trigger_url := f.httpsTrigger.bind (fun t => t.url)
    event_trigger_type := f.eventTrigger.bind (fun t => t.eventType)
    event_trigger_resource := f.eventTrigger.bind (fun t => t.resource)
    region := regionOfName f.name }

/-- The string comparison Python uses between region keys, extended to
`Option` with `none` least so that the relation is total and transitive.
The extension is never exercised by the embedded transform: when any
region is `none` and a comparison would happen, the transform raises
`TypeError` instead of sorting (see `transform_gcp_cloud_functions`). -/
def leRegion (a b : Option String) : Bool :=
  match a, b with
  | none, _ => true
  | some _, none => false
  | some x, some y => decide (x ≤ y)

/-- Ordering of transformed records by their `region` key, as used by
`functions.sort(key=itemgetter('region'))`. -/
def leByRegion (a b : TransFunc) : Prop :=
  leRegion a.region b.region = true

instance : DecidableRel leByRegion := fun a b => by
  unfold leByRegion; infer_instance

/-- `transform_gcp_cloud_functions(functions)`: adds the four keys to
every record, then sorts the list by region.  CPython's sort compares
every element against some other element whenever the list has at least
two entries, and comparing `None` with a string (or with `None`) raises
`TypeError`; a list of at most one element is never compared.  The sort
is stable (Timsort), modelled by insertion sort. -/
def transform_gcp_cloud_functions (functions : List GCPFunction) :
    Except PyErr (List TransFunc) :=
  let l := functions.map addFields
  if 2 ≤ l.length && l.any (fun r => r.region.isNone) then
    .error .typeError
  else
    .ok (l.insertionSort leByRegion)

/-! ## Cloud Functions: paginated collection (gcf.py) -/

/-- One page response of the functions listing API; the `functions` key
may be absent (`if 'functions' in response`). -/
structure FnPage where
  functions : Option (List GCPFunction)
  deriving Repr

/-- The records a page contributes to the accumulator. -/
def fnPageRecords (p : FnPage) : List GCPFunction :=
  p.functions.getD []

/-- The `while request is not None` accumulation loop of
`get_gcp_cloud_functions`: `collected_functions.extend(...)` per page,
returning only once `list_next` yields no further request. -/
def collectFnPages : List FnPage → List GCPFunction → List GCPFunction
  | [], acc => acc
  | p :: rest, acc => collectFnPages rest (acc ++ fnPageRecords p)

/-- `get_gcp_cloud_functions(project_id, functions_client)`.  The
external API either serves the full sequence of pages or raises an
`HttpError` (a failure mid-pagination discards the partial accumulator,
so an upfront error is observationally the same).  A permission-denied
or API-not-enabled error is collapsed to an empty list; every other
`HttpError` is re-raised. -/
def get_gcp_cloud_functions (api : Except HttpErr (List FnPage)) :
    Except HttpErr (List GCPFunction) :=
  match api with
  | .ok pages => .ok (collectFnPages pages [])
  | .error e =>
    if isPermissionOrApiDisabled e then .ok [] else .error e

/-! ## The property graph touched by the Cloud Functions connector -/

/-- Attributes the ingest query `SET`s on a `GCPCloudFunction` node,
plus the `firstseen` timestamp `ON CREATE` assigns. -/
structure FnAttrs where
  name : String
  display_name : Option String
  description : Option String
  state : Option String
  runtime : Option String
  entry_point : Option String
  https_trigger_url : Option String
  event_trigger_type : Option String
  event_trigger_resource : Option String
  create_time : Option String
  update_time : Option String
  service_account_email : Option String
  project_id : String
  region : Option String
  lastupdated : Nat
  firstseen : Nat
  deriving DecidableEq, Repr

/-- A `GCPProject` node: created outside the connector (the loader only
`MATCH`es it), so only its presence matters here. -/
structure ProjAttrs where
  lastupdated : Nat
  deriving DecidableEq, Repr

/-- A `GCPServiceAccount` node as merged by the ingest query. -/
structure SAttrs where
  email : String
  lastupdated : Nat
  firstseen : Nat
  deriving DecidableEq, Repr

/-- Attributes of a `RESOURCE` or `RUNS_AS` relationship. -/
structure RelAttrs where
  lastupdated : Nat
  firstseen : Nat
  deriving DecidableEq, Repr

/-- The slice of the Neo4j graph the Cloud Functions connector reads and
writes.  Nodes are keyed by their `id` property; relationships by the
`id`s of their two endpoints. -/
structure GGraph where
  functions : String → Option FnAttrs
  projects : String → Option ProjAttrs
  serviceAccounts : String → Option SAttrs
  resourceRels : String × String → Option RelAttrs
  runsAsRels : String × String → Option RelAttrs

/-- A graph with no nodes and no relationships. -/
def emptyGGraph : GGraph :=
  { functions := fun _ => none
    projects := fun _ => none
    serviceAccounts := fun _ => none
    resourceRels := fun _ => none
    runsAsRels := fun _ => none }

theorem GGraph_eq_of_parts {g1 g2 : GGraph}
    (hf : g1.functions = g2.functions) (hp : g1.projects = g2.projects)
    (hs : g1.serviceAccounts = g2.serviceAccounts)
    (hr : g1.resourceRels = g2.resourceRels)
    (ha : g1.runsAsRels = g2.runsAsRels) : g1 = g2 := by
  cases g1; cases g2; simp_all

/-! ### Generic MERGE-then-SET semantics

`MERGE (n {id: k}) ON CREATE SET n.firstseen = timestamp() SET n.<attrs>`
creates the node when absent (stamping `firstseen` with the current
clock) and then overwrites every listed attribute; `firstseen` of an
existing node is preserved.  The same shape covers relationship MERGEs. -/

/-- One MERGE-and-SET on a map: `k` the merge key, `mkv n` the full
attribute set given the `firstseen` value `n`, `fs` extracts `firstseen`
from stored attributes, `t` the current clock used on create. -/
def upsertOne {κ β : Type} [DecidableEq κ] (k : κ) (mkv : Nat → β)
    (fs : β → Nat) (t : Nat) (m : κ → Option β) : κ → Option β :=
  fun q =>
    if q = k then
      some (mkv (match m k with | some b => fs b | none => t))
    else m q

/-- Sequential MERGE-and-SET over a batch of records, in order. -/
def upsertFold {α κ β : Type} [DecidableEq κ] (key : α → κ)
    (mkv : α → Nat → β) (fs : β → Nat) (t : Nat) (data : List α)
    (m : κ → Option β) : κ → Option β :=
  data.foldl (fun m a => upsertOne (key a) (mkv a) fs t m) m

/-! ### The ingest query of load_gcp_cloud_functions -/

/-- The full attribute set the ingest query writes on a function node
(region comes from the record, `project_id` and `lastupdated` from the
query parameters). -/
def mkFnAttrs (proj : String) (tag : Nat) (r : TransFunc) (n : Nat) :
    FnAttrs :=
  { name := r.raw.name.getD ""
    display_name := r.raw.displayName
    description := r.raw.description
    state := r.raw.state
    runtime := r.raw.runtime
    entry_point := r.raw.entryPoint
    https_trigger_url := r.https_trigger_url
    event_trigger_type := r.event_trigger_type
    event_trigger_resource := r.event_trigger_resource
    create_time := r.raw.createTime
    update_time := r.raw.updateTime
    service_account_email := r.raw.serviceAccountEmail
    project_id := proj
    region := r.region
    lastupdated := tag
    firstseen := n }

/-- The effect of the ingest Cypher query on one `UNWIND` row:
merge the function node; if the `MATCH (p:GCPProject)` finds the
project, merge the `RESOURCE` relationship; if additionally
`serviceAccountEmail IS NOT NULL`, merge the service-account node and
the `RUNS_AS` relationship.  A record whose `name` is absent is skipped
(Neo4j refuses to MERGE on a null id; unreachable from the transform,
whose region derivation already requires a name). -/
def queryStepFn (proj : String) (tag t : Nat) (g : GGraph)
    (r : TransFunc) : GGraph :=
  match r.raw.name with
  | none => g
  | some nm =>
    let g1 : GGraph :=
      { g with
        functions :=
          upsertOne nm (mkFnAttrs proj tag r) FnAttrs.firstseen t
            g.functions }
    if (g.projects proj).isSome then
      let g2 : GGraph :=
        { g1 with
          resourceRels :=
            upsertOne (nm, proj) (fun n => ⟨tag, n⟩) RelAttrs.firstseen
              t g1.resourceRels }
      match r.raw.serviceAccountEmail with
      | some em =>
        let g3 : GGraph :=
          { g2 with
            serviceAccounts :=
              upsertOne em (fun n => ⟨em, tag, n⟩) SAttrs.firstseen t
                g2.serviceAccounts }
        { g3 with
          runsAsRels :=
            upsertOne (nm, em) (fun n => ⟨tag, n⟩) RelAttrs.firstseen t
              g3.runsAsRels }
      | none => g2
    else g1

/-- `itertools.groupby(data, key=itemgetter('region'))`: maximal runs of
consecutive records sharing a region, each with its key. -/
def groupRuns : List TransFunc → List (Option String × List TransFunc)
  | [] => []
  | f :: rest =>
    match groupRuns rest with
    | [] => [(f.region, [f])]
    | (k, run) :: more =>
      if f.region = k then (k, f :: run) :: more
      else (f.region, [f]) :: (k, run) :: more

/-- The loop body `func['region'] = region` (a no-op: the group key is
the members' own region, proved below). -/
def setRegion (k : Option String) (r : TransFunc) : TransFunc :=
  { r with region := k }

/-- Python truthiness of a region value: `None` and `""` are falsy. -/
def truthyRegion : Option String → Bool
  | none => false
  | some s => s != ""

/-- The loop body of `load_gcp_cloud_functions` for one region group:
groups with a falsy region are skipped, the others have `func['region']
= region` re-assigned to every member and the ingest query run over the
member list. -/
def runGroup (proj : String) (tag t : Nat) (g : GGraph)
    (kr : Option String × List TransFunc) : GGraph :=
  if truthyRegion kr.1 then
    (kr.2.map (setRegion kr.1)).foldl (queryStepFn proj tag t) g
  else g

/-- `load_gcp_cloud_functions(neo4j_session, data, project_id,
update_tag)`: group the records by region and run the ingest query over
each group in order.  `t` is the Neo4j `timestamp()` clock of this
run. -/
def load_gcp_cloud_functions (data : List TransFunc) (proj : String)
    (tag t : Nat) (g : GGraph) : GGraph :=
  (groupRuns data).foldl (runGroup proj tag t) g

/-- Modelled from the spec: `GraphJob.from_node_schema(
GCPCloudFunctionSchema(), params).run(session)` — the Stale-Sweeper for
the Cloud Functions resource type.  The GraphJob implementation
(cartography.graph.job) is not under src/; per the spec it deletes every
node of the resource type whose scope (here the `project_id` attribute,
bound to the `PROJECT_ID` parameter) matches and whose `lastupdated` tag
differs from the current run tag, together with all of its
relationships (detach-delete). -/
def cleanup_gcp_cloud_functions (g : GGraph) (proj : String)
    (tag : Nat) : GGraph :=
  let stale : String → Bool := fun id =>
    match g.functions id with
    | some a => a.project_id == proj && a.lastupdated != tag
    | none => false
  { functions := fun id => if stale id then none else g.functions id
    projects := g.projects
    serviceAccounts := g.serviceAccounts
    resourceRels := fun p => if stale p.1 then none else g.resourceRels p
    runsAsRels := fun p => if stale p.1 then none else g.runsAsRels p }

/-- The phases of one sync invocation, in the order the code completes
them. -/
inductive Phase
  | collect
  | transform
  | upsert
  | cleanup
  deriving DecidableEq, Repr

/-- An exception escaping a sync invocation. -/
inductive SyncErr
  | http (e : HttpErr)
  | py (e : PyErr)
  deriving DecidableEq, Repr

/-- `sync(neo4j_session, functions_client, project_id, update_tag,
common_job_parameters)` from gcf.py: collect; if the collection is
non-empty, transform and load; always clean up afterwards.  An
exception anywhere propagates, skipping everything after it.  The first
component records the phases that completed. -/
def gcfSync (api : Except HttpErr (List FnPage)) (g : GGraph)
    (proj : String) (tag t : Nat) :
    List Phase × Except SyncErr GGraph :=
  match get_gcp_cloud_functions api with
  | .error e => ([], .error (.http e))
  | .ok data =>
    if data.isEmpty then
      ([.collect, .cleanup], .ok (cleanup_gcp_cloud_functions g proj tag))
    else
      match transform_gcp_cloud_functions data with
      | .error e => ([.collect], .error (.py e))
      | .ok td =>
        ([.collect, .transform, .upsert, .cleanup],
          .ok (cleanup_gcp_cloud_functions
            (load_gcp_cloud_functions td proj tag t g) proj tag))

/-! ## Storage Buckets: raw records (storage.py)

Scalar leaf values of the bucket document are opaque payloads here,
modelled as strings; what matters to the connector is key presence. -/

/-- The optional `owner` sub-document. -/
structure BktOwner where
  entity : Option String
  entityId : Option String
  deriving DecidableEq, Repr

/-- The optional `iamConfiguration.bucketPolicyOnly` nesting. -/
structure BktBucketPolicyOnly where
  enabled : Option String
  deriving DecidableEq, Repr

/-- The optional `iamConfiguration` sub-document. -/
structure BktIamConfig where
  bucketPolicyOnly : Option BktBucketPolicyOnly
  deriving DecidableEq, Repr

/-- A raw bucket record as returned by the GCP storage API: every key
`transform_gcp_buckets` reads.  `labels` models the optional map-valued
`labels` key (`b.get("labels", {})`, iterated in insertion order). -/
structure GCPBucket where
  id : Option String
  projectNumber : Option String
  labels : List (String × String)
  etag : Option String
  owner : Option BktOwner
  kind : Option String
  location : Option String
  locationType : Option String
  metageneration : Option String
  selfLink : Option String
  storageClass : Option String
  timeCreated : Option String
  updated : Option String
  versioningEnabled : Option String
  defaultEventBasedHold : Option String
  retentionPeriod : Option String
  defaultKmsKeyName : Option String
  logBucket : Option String
  requesterPays : Option String
  iamConfiguration : Option BktIamConfig
  deriving DecidableEq, Repr

/-- A flattened label record as built inside the label loop of
`transform_gcp_buckets`. -/
structure LabelOut where
  id : String
  key : String
  value : String
  bucket_id : String
  project_number : String
  deriving DecidableEq, Repr

/-- A normalized bucket record (`transformed_bucket`). -/
structure BucketOut where
  id : String
  project_number : String
  etag : Option String
  owner_entity : Option String
  owner_entity_id : Option String
  kind : Option String
  location : Option String
  location_type : Option String
  meta_generation : Option String
  self_link : Option String
  storage_class : Option String
  time_created : Option String
  updated : Option String
  versioning_enabled : Option String
  default_event_based_hold : Option String
  retention_period : Option String
  default_kms_key_name : Option String
  log_bucket : Option String
  requester_pays : Option String
  iam_config_bucket_policy_only : Option String
  labels : List LabelOut
  label_ids : List String
  deriving DecidableEq, Repr

/-- Does a raw bucket record carry both subscripted keys (`b["id"]` and
`b["projectNumber"]`)? -/
def bucketKeysOk (b : GCPBucket) : Bool :=
  b.id.isSome && b.projectNumber.isSome

/-- One entry of the label loop:
`{"id": f"(bucket id)_(key)", "key": key, "value": val,
"bucket_id": b["id"], "project_number": b["projectNumber"]}`. -/
def mkLabelOut (i pn : String) (kv : String × String) : LabelOut :=
  { id := i ++ "_" ++ kv.1
    key := kv.1
    value := kv.2
    bucket_id := i
    project_number := pn }

/-- The loop body of `transform_gcp_buckets` for one record.  The
subscript lookups `b["id"]` and `b["projectNumber"]` raise `KeyError`
when the key is absent (whether hit first inside the label loop or in
the `transformed_bucket` literal); every other field uses `.get` and
defaults to `None`. -/
def transformBucket (b : GCPBucket) : Except PyErr BucketOut :=
  match b.id, b.projectNumber with
  | some i, some pn =>
    let ls := b.labels.map (mkLabelOut i pn)
    .ok
      { id := i
        project_number := pn
        etag := b.etag
        owner_entity := b.owner.bind (fun o => o.entity)
        owner_entity_id := b.owner.bind (fun o => o.entityId)
        kind := b.kind
        location := b.location
        location_type := b.locationType
        meta_generation := b.metageneration
        self_link := b.selfLink
        storage_class := b.storageClass
        time_created := b.timeCreated
        updated := b.updated
        versioning_enabled := b.versioningEnabled
        default_event_based_hold := b.defaultEventBasedHold
        retention_period := b.retentionPeriod
        default_kms_key_name := b.defaultKmsKeyName
        log_bucket := b.logBucket
        requester_pays := b.requesterPays
        iam_config_bucket_policy_only :=
          (b.iamConfiguration.bind (fun c => c.bucketPolicyOnly)).bind
            (fun p => p.enabled)
        labels := ls
        label_ids := ls.map (fun l => l.id) }
  | _, _ => .error .keyError

/-- `transform_gcp_buckets(buckets_response)`: one normalized record is
appended per input record; the first `KeyError` aborts the whole call. -/
def transform_gcp_buckets (buckets_response : List GCPBucket) :
    Except PyErr (List BucketOut) :=
  match buckets_response with
  | [] => .ok []
  | b :: rest =>
    match transformBucket b with
    | .error e => .error e
    | .ok tb =>
      match transform_gcp_buckets rest with
      | .error e => .error e
      | .ok out => .ok (tb :: out)

/-! ## Storage Buckets: paginated collection -/

/-- One page response of the bucket listing API; the `items` key may be
absent (`if 'items' in response`). -/
structure BktPage where
  items : Option (List GCPBucket)
  deriving Repr

/-- The records a page contributes to the accumulator. -/
def bktPageRecords (p : BktPage) : List GCPBucket :=
  p.items.getD []

/-- The `while request is not None` accumulation loop of
`get_gcp_buckets`. -/
def collectBktPages : List BktPage → List GCPBucket → List GCPBucket
  | [], acc => acc
  | p :: rest, acc => collectBktPages rest (acc ++ bktPageRecords p)

/-- `get_gcp_buckets(storage, project_id)`: permission-denied or
API-not-enabled errors collapse to an empty list; so does an HTTP 404
(`elif e.resp.status in [404]`); every other `HttpError` is re-raised. -/
def get_gcp_buckets (api : Except HttpErr (List BktPage)) :
    Except HttpErr (List GCPBucket) :=
  match api with
  | .ok pages => .ok (collectBktPages pages [])
  | .error e =>
    if isPermissionOrApiDisabled e then .ok []
    else if e.respStatus = 404 then .ok []
    else .error e

/-! ## The property graph touched by the Storage Buckets connector -/

/-- Node attributes of a `GCPBucket` node: the schema properties of
`GCPStorageBucketSchema`, with `lastupdated` and `project_number`
supplied as kwargs and `firstseen` stamped on create. -/
structure BktAttrs where
  id : String
  project_number : String
  kind : Option String
  location : Option String
  location_type : Option String
  meta_generation : Option String
  storage_class : Option String
  time_created : Option String
  updated : Option String
  self_link : Option String
  etag : Option String
  owner_entity : Option String
  owner_entity_id : Option String
  iam_config_bucket_policy_only : Option String
  versioning_enabled : Option String
  retention_period : Option String
  default_event_based_hold : Option String
  log_bucket : Option String
  requester_pays : Option String
  default_kms_key_name : Option String
  lastupdated : Nat
  firstseen : Nat
  deriving DecidableEq, Repr

/-- Node attributes of a `GCPBucketLabel` node
(`GCPBucketLabelSchema`). -/
structure LblAttrs where
  id : String
  key : String
  value : String
  lastupdated : Nat
  firstseen : Nat
  deriving DecidableEq, Repr

/-- The slice of the graph the bucket connector writes: bucket and
label nodes, their `RESOURCE` relationships to the project, and the
`LABELED` relationships from buckets to labels. -/
structure BGraph where
  buckets : String → Option BktAttrs
  labels : String → Option LblAttrs
  bucketProjRels : String × String → Option RelAttrs
  labelProjRels : String × String → Option RelAttrs
  labeledRels : String × String → Option RelAttrs

/-- A bucket graph with no nodes and no relationships. -/
def emptyBGraph : BGraph :=
  { buckets := fun _ => none
    labels := fun _ => none
    bucketProjRels := fun _ => none
    labelProjRels := fun _ => none
    labeledRels := fun _ => none }

theorem BGraph_eq_of_parts {g1 g2 : BGraph}
    (hb : g1.buckets = g2.buckets) (hl : g1.labels = g2.labels)
    (hbp : g1.bucketProjRels = g2.bucketProjRels)
    (hlp : g1.labelProjRels = g2.labelProjRels)
    (hld : g1.labeledRels = g2.labeledRels) : g1 = g2 := by
  cases g1; cases g2; simp_all

/-- The node attributes the declarative loader writes for a bucket. -/
def mkBktAttrs (proj : String) (tag : Nat) (b : BucketOut) (n : Nat) :
    BktAttrs :=
  { id := b.id
    project_number := proj
    kind := b.kind
    location := b.location
    location_type := b.location_type
    meta_generation := b.meta_generation
    storage_class := b.storage_class
    time_created := b.time_created
    updated := b.updated
    self_link := b.self_link
    etag := b.etag
    owner_entity := b.owner_entity
    owner_entity_id := b.owner_entity_id
    iam_config_bucket_policy_only := b.iam_config_bucket_policy_only
    versioning_enabled := b.versioning_enabled
    retention_period := b.retention_period
    default_event_based_hold := b.default_event_based_hold
    log_bucket := b.log_bucket
    requester_pays := b.requester_pays
    default_kms_key_name := b.default_kms_key_name
    lastupdated := tag
    firstseen := n }

/-- The node attributes the declarative loader writes for a label. -/
def mkLblAttrs (tag : Nat) (l : LabelOut) (n : Nat) : LblAttrs :=
  { id := l.id
    key := l.key
    value := l.value
    lastupdated := tag
    firstseen := n }

/-- One batched write issued by `load_gcp_buckets`: either the label
pass or the bucket pass. -/
inductive BWriteOp
  | writeLabels (ls : List LabelOut)
  | writeBuckets (bs : List BucketOut)
  deriving DecidableEq, Repr

/-- `all_labels`: the flattened labels of every bucket, accumulated by
`all_labels.extend(bucket.get("labels", []))` in bucket order. -/
def allLabels (bs : List BucketOut) : List LabelOut :=
  bs.foldl (fun acc b => acc ++ b.labels) []

/-- The sequence of graph writes `load_gcp_buckets` issues: the label
pass first (skipped when there are no labels, `if all_labels:`), then
unconditionally the bucket pass. -/
def load_gcp_buckets_ops (bs : List BucketOut) : List BWriteOp :=
  (if allLabels bs ≠ [] then [.writeLabels (allLabels bs)] else []) ++
    [.writeBuckets bs]

/-- Modelled from the spec: the generic declarative loader
`cartography.client.core.tx.load` (not under src/) applied to one write
op.  Per the spec it merges each record's node by id, unconditionally
overwriting all attributes including the run tag (`firstseen` preserved
on re-observation), merges the mandatory scope relationship to the
project supplied out-of-band, and merges each secondary relationship
named in the record (`LABELED`, one per entry of `label_ids`). -/
def applyBOp (proj : String) (tag t : Nat) (g : BGraph) :
    BWriteOp → BGraph
  | .writeLabels ls =>
    { g with
      labels :=
        upsertFold (fun l => l.id) (fun l => mkLblAttrs tag l)
          LblAttrs.firstseen t ls g.labels
      labelProjRels :=
        upsertFold (fun l => (l.id, proj)) (fun _ n => ⟨tag, n⟩)
          RelAttrs.firstseen t ls g.labelProjRels }
  | .writeBuckets bs =>
    { g with
      buckets :=
        upsertFold (fun b => b.id) (fun b => mkBktAttrs proj tag b)
          BktAttrs.firstseen t bs g.buckets
      bucketProjRels :=
        upsertFold (fun b => (b.id, proj)) (fun _ n => ⟨tag, n⟩)
          RelAttrs.firstseen t bs g.bucketProjRels
      labeledRels :=
        upsertFold (fun p => p) (fun _ n => ⟨tag, n⟩)
          RelAttrs.firstseen t
          (bs.flatMap (fun b => b.label_ids.map (fun l => (b.id, l))))
          g.labeledRels }

/-- `load_gcp_buckets(neo4j_session, buckets, project_id,
gcp_update_tag)`: execute the write ops in order. -/
def load_gcp_buckets (bs : List BucketOut) (proj : String)
    (tag t : Nat) (g : BGraph) : BGraph :=
  (load_gcp_buckets_ops bs).foldl (applyBOp proj tag t) g

/-- Modelled from the spec: the two `GraphJob.from_node_schema` cleanup
passes of `cleanup_gcp_buckets` (GraphJob is not under src/).  Stale
bucket nodes (scope attribute `project_number` matching, tag differing)
are detach-deleted first, then stale label nodes, scoped through their
`RESOURCE` relationship to the project. -/
def cleanup_gcp_buckets (g : BGraph) (proj : String) (tag : Nat) :
    BGraph :=
  let staleB : String → Bool := fun id =>
    match g.buckets id with
    | some a => a.project_number == proj && a.lastupdated != tag
    | none => false
  let staleL : String → Bool := fun id =>
    match g.labels id with
    | some a => (g.labelProjRels (id, proj)).isSome && a.lastupdated != tag
    | none => false
  { buckets := fun id => if staleB id then none else g.buckets id
    labels := fun id => if staleL id then none else g.labels id
    bucketProjRels := fun p =>
      if staleB p.1 then none else g.bucketProjRels p
    labelProjRels := fun p =>
      if staleL p.1 then none else g.labelProjRels p
    labeledRels := fun p =>
      if staleB p.1 || staleL p.2 then none else g.labeledRels p }

/-- `sync_gcp_buckets(neo4j_session, storage, project_id,
gcp_update_tag, common_job_parameters)` from storage.py: collect; if
non-empty, transform and load; always clean up afterwards; exceptions
propagate.  The first component records the phases that completed. -/
def bktSync (api : Except HttpErr (List BktPage)) (g : BGraph)
    (proj : String) (tag t : Nat) :
    List Phase × Except SyncErr BGraph :=
  match get_gcp_buckets api with
  | .error e => ([], .error (.http e))
  | .ok data =>
    if data.isEmpty then
      ([.collect, .cleanup], .ok (cleanup_gcp_buckets g proj tag))
    else
      match transform_gcp_buckets data with
      | .error e => ([.collect], .error (.py e))
      | .ok bl =>
        ([.collect, .transform, .upsert, .cleanup],
          .ok (cleanup_gcp_buckets
            (load_gcp_buckets bl proj tag t g) proj tag))

/-! ## Lemmas: pagination loops -/

theorem collectFnPages_eq (ps : List FnPage) (acc : List GCPFunction) :
    collectFnPages ps acc = acc ++ (ps.map fnPageRecords).flatten := by
  induction ps generalizing acc with
  | nil => simp [collectFnPages]
  | cons p rest ih => simp [collectFnPages, ih]

theorem collectBktPages_eq (ps : List BktPage) (acc : List GCPBucket) :
    collectBktPages ps acc = acc ++ (ps.map bktPageRecords).flatten := by
  induction ps generalizing acc with
  | nil => simp [collectBktPages]
  | cons p rest ih => simp [collectBktPages, ih]

/-! ## Lemmas: MERGE-and-SET batches -/

/-- The `firstseen` a MERGE leaves on a node: the stored one when the
node exists, the current clock otherwise. -/
def fsOr {β : Type} (fs : β → Nat) (t : Nat) : Option β → Nat
  | some b => fs b
  | none => t

/-- What a batch of MERGE-and-SETs leaves at key `q`: the attributes of
the last record of the batch merging to `q` (its `firstseen` taken from
the pre-batch graph), or the old entry when no record maps there. -/
theorem upsertFold_apply {α κ β : Type} [DecidableEq κ] (key : α → κ)
    (mkv : α → Nat → β) (fs : β → Nat)
    (hfs : ∀ a n, fs (mkv a n) = n) (t : Nat) (data : List α)
    (m : κ → Option β) (q : κ) :
    upsertFold key mkv fs t data m q =
      match data.reverse.find? (fun a => decide (key a = q)) with
      | some a => some (mkv a (fsOr fs t (m q)))
      | none => m q := by
  induction data generalizing m with
  | nil => rfl
  | cons a rest ih =>
    have hstep :
        upsertFold key mkv fs t (a :: rest) m =
          upsertFold key mkv fs t rest
            (upsertOne (key a) (mkv a) fs t m) := rfl
    rw [hstep, ih]
    have hfind :
        (a :: rest).reverse.find? (fun b => decide (key b = q)) =
          ((rest.reverse.find? (fun b => decide (key b = q))).or
            ([a].find? (fun b => decide (key b = q)))) := by
      rw [List.reverse_cons, List.find?_append]
    rw [hfind]
    cases hr : rest.reverse.find? (fun b => decide (key b = q)) with
    | some b =>
      simp only [Option.or_some]
      by_cases hq : q = key a
      · subst hq
        simp [upsertOne, fsOr, hfs]
      · simp [upsertOne, hq]
    | none =>
      simp only [Option.or_none]
      by_cases hq : key a = q
      · rw [List.find?_cons_of_pos _ (by simpa using hq)]
        subst hq
        simp [upsertOne, fsOr]
      · have hq2 : ¬ q = key a := fun h => hq h.symm
        rw [List.find?_cons_of_neg _ (by simpa using hq), List.find?_nil]
        simp [upsertOne, hq2]

/-- Re-running the same MERGE-and-SET batch (with any later clock) over
its own output changes nothing: attributes, tags and `firstseen` all
coincide with the single run. -/
theorem upsertFold_idem {α κ β : Type} [DecidableEq κ] (key : α → κ)
    (mkv : α → Nat → β) (fs : β → Nat)
    (hfs : ∀ a n, fs (mkv a n) = n) (t1 t2 : Nat) (data : List α)
    (m : κ → Option β) :
    upsertFold key mkv fs t2 data (upsertFold key mkv fs t1 data m) =
      upsertFold key mkv fs t1 data m := by
  funext q
  rw [upsertFold_apply key mkv fs hfs t2,
    upsertFold_apply key mkv fs hfs t1]
  cases hr : data.reverse.find? (fun a => decide (key a = q)) with
  | some a => simp [fsOr, hfs]
  | none => rfl

/-! ## Lemmas: flattening the grouped function load -/

/-- Re-assigning a record's own region is the identity. -/
theorem setRegion_self (r : TransFunc) : setRegion r.region r = r := by
  cases r; rfl

/-- The ingest query applied record by record, with falsy-region
records skipped: the grouped load reduces to this fold. -/
def condStep (proj : String) (tag t : Nat) (g : GGraph)
    (r : TransFunc) : GGraph :=
  if truthyRegion r.region then queryStepFn proj tag t g r else g

theorem groupRuns_cons_foldl (proj : String) (tag t : Nat)
    (f : TransFunc) (rest : List TransFunc) (g : GGraph) :
    (groupRuns (f :: rest)).foldl (runGroup proj tag t) g =
      (groupRuns rest).foldl (runGroup proj tag t)
        (condStep proj tag t g f) := by
  cases h : groupRuns rest with
  | nil =>
    simp only [groupRuns, h, List.foldl]
    unfold runGroup condStep
    cases ht : truthyRegion f.region <;>
      simp [ht, setRegion_self]
  | cons kr more =>
    obtain ⟨k, run⟩ := kr
    simp only [groupRuns, h]
    by_cases hk : f.region = k
    · simp only [hk, if_true, List.foldl]
      unfold runGroup condStep
      rw [← hk]
      cases ht : truthyRegion f.region <;>
        simp [ht, setRegion_self]
    · simp only [hk, if_false, List.foldl]
      unfold runGroup condStep
      cases ht : truthyRegion f.region <;>
        simp [ht, setRegion_self]

/-- `itertools.groupby` only chunks consecutive records: the grouped
query execution equals the plain record-by-record fold. -/
theorem load_gcp_cloud_functions_eq_fold (td : List TransFunc)
    (proj : String) (tag t : Nat) (g : GGraph) :
    load_gcp_cloud_functions td proj tag t g =
      td.foldl (condStep proj tag t) g := by
  induction td generalizing g with
  | nil => rfl
  | cons f rest ih =>
    unfold load_gcp_cloud_functions at ih ⊢
    rw [groupRuns_cons_foldl, ih, List.foldl_cons]

/-! ## Lemmas: componentwise shape of the ingested graph -/

/-- The merge key of a function record (only used on records whose name
is present). -/
def fnKeyOf (r : TransFunc) : String := r.raw.name.getD ""

/-- Records the ingest query actually merges a function node for:
truthy region group and a non-null name. -/
def ingestable (r : TransFunc) : Bool :=
  truthyRegion r.region && r.raw.name.isSome

/-- Records that additionally carry a service account email. -/
def ingestableSA (r : TransFunc) : Bool :=
  ingestable r && r.raw.serviceAccountEmail.isSome

/-- The email key of a record (only used when the email is present). -/
def saKeyOf (r : TransFunc) : String :=
  r.raw.serviceAccountEmail.getD ""

theorem queryStepFn_projects (proj : String) (tag t : Nat)
    (g : GGraph) (r : TransFunc) :
    (queryStepFn proj tag t g r).projects = g.projects := by
  unfold queryStepFn
  cases r.raw.name with
  | none => rfl
  | some nm =>
    by_cases hp : (g.projects proj).isSome <;>
      cases r.raw.serviceAccountEmail <;> simp [hp]

theorem condStep_projects (proj : String) (tag t : Nat) (g : GGraph)
    (r : TransFunc) :
    (condStep proj tag t g r).projects = g.projects := by
  unfold condStep
  cases truthyRegion r.region <;> simp [queryStepFn_projects]

theorem foldCond_projects (td : List TransFunc) (proj : String)
    (tag t : Nat) (g : GGraph) :
    (td.foldl (condStep proj tag t) g).projects = g.projects := by
  induction td generalizing g with
  | nil => rfl
  | cons f rest ih => rw [List.foldl_cons, ih, condStep_projects]

theorem queryStepFn_functions (proj : String) (tag t : Nat)
    (g : GGraph) (r : TransFunc) :
    (queryStepFn proj tag t g r).functions =
      match r.raw.name with
      | none => g.functions
      | some nm =>
        upsertOne nm (mkFnAttrs proj tag r) FnAttrs.firstseen t
          g.functions := by
  unfold queryStepFn
  cases r.raw.name with
  | none => rfl
  | some nm =>
    by_cases hp : (g.projects proj).isSome <;>
      cases r.raw.serviceAccountEmail <;> simp [hp]

theorem queryStepFn_resourceRels (proj : String) (tag t : Nat)
    (g : GGraph) (r : TransFunc) :
    (queryStepFn proj tag t g r).resourceRels =
      match r.raw.name with
      | none => g.resourceRels
      | some nm =>
        if (g.projects proj).isSome then
          upsertOne (nm, proj) (fun n => ⟨tag, n⟩) RelAttrs.firstseen t
            g.resourceRels
        else g.resourceRels := by
  unfold queryStepFn
  cases r.raw.name with
  | none => rfl
  | some nm =>
    by_cases hp : (g.projects proj).isSome <;>
      cases r.raw.serviceAccountEmail <;> simp [hp]

theorem queryStepFn_serviceAccounts (proj : String) (tag t : Nat)
    (g : GGraph) (r : TransFunc) :
    (queryStepFn proj tag t g r).serviceAccounts =
      match r.raw.name with
      | none => g.serviceAccounts
      | some _ =>
        if (g.projects proj).isSome then
          match r.raw.serviceAccountEmail with
          | some em =>
            upsertOne em (fun n => ⟨em, tag, n⟩) SAttrs.firstseen t
              g.serviceAccounts
          | none => g.serviceAccounts
        else g.serviceAccounts := by
  unfold queryStepFn
  cases r.raw.name with
  | none => rfl
  | some nm =>
    by_cases hp : (g.projects proj).isSome <;>
      cases r.raw.serviceAccountEmail <;> simp [hp]

theorem queryStepFn_runsAsRels (proj : String) (tag t : Nat)
    (g : GGraph) (r : TransFunc) :
    (queryStepFn proj tag t g r).runsAsRels =
      match r.raw.name with
      | none => g.runsAsRels
      | some nm =>
        if (g.projects proj).isSome then
          match r.raw.serviceAccountEmail with
          | some em =>
            upsertOne (nm, em) (fun n => ⟨tag, n⟩) RelAttrs.firstseen t
              g.runsAsRels
          | none => g.runsAsRels
        else g.runsAsRels := by
  unfold queryStepFn
  cases r.raw.name with
  | none => rfl
  | some nm =>
    by_cases hp : (g.projects proj).isSome <;>
      cases r.raw.serviceAccountEmail <;> simp [hp]

theorem foldCond_functions (td : List TransFunc) (proj : String)
    (tag t : Nat) (g : GGraph) :
    (td.foldl (condStep proj tag t) g).functions =
      upsertFold fnKeyOf (mkFnAttrs proj tag) FnAttrs.firstseen t
        (td.filter ingestable) g.functions := by
  induction td generalizing g with
  | nil => rfl
  | cons f rest ih =>
    rw [List.foldl_cons, ih]
    by_cases ht : truthyRegion f.region = true
    · cases hn : f.raw.name with
      | none =>
        have hi : ingestable f = false := by
          simp [ingestable, hn]
        have hc : (condStep proj tag t g f).functions = g.functions := by
          unfold condStep
          rw [ht, if_pos rfl, queryStepFn_functions, hn]
        rw [List.filter_cons_of_neg (by simp [hi])]
        rw [hc]
      | some nm =>
        have hi : ingestable f = true := by
          simp [ingestable, ht, hn]
        have hc : (condStep proj tag t g f).functions =
            upsertOne nm (mkFnAttrs proj tag f) FnAttrs.firstseen t
              g.functions := by
          unfold condStep
          rw [ht, if_pos rfl, queryStepFn_functions, hn]
        rw [List.filter_cons_of_pos (by simp [hi])]
        rw [hc]
        have hk : fnKeyOf f = nm := by simp [fnKeyOf, hn]
        simp [upsertFold, hk]
    · have ht2 : truthyRegion f.region = false := by
        simpa using ht
      have hi : ingestable f = false := by
        simp [ingestable, ht2]
      have hc : condStep proj tag t g f = g := by
        unfold condStep; rw [ht2]; simp
      rw [List.filter_cons_of_neg (by simp [hi]), hc]

theorem foldCond_resourceRels (td : List TransFunc) (proj : String)
    (tag t : Nat) (g : GGraph) :
    (td.foldl (condStep proj tag t) g).resourceRels =
      if (g.projects proj).isSome then
        upsertFold (fun r => (fnKeyOf r, proj)) (fun _ n => ⟨tag, n⟩)
          RelAttrs.firstseen t (td.filter ingestable) g.resourceRels
      else g.resourceRels := by
  induction td generalizing g with
  | nil => cases hp : (g.projects proj).isSome <;> simp [hp, upsertFold]
  | cons f rest ih =>
    rw [List.foldl_cons, ih, condStep_projects]
    by_cases ht : truthyRegion f.region = true
    · cases hn : f.raw.name with
      | none =>
        have hi : ingestable f = false := by simp [ingestable, hn]
        have hc : condStep proj tag t g f = g := by
          unfold condStep queryStepFn
          rw [ht, if_pos rfl, hn]
        rw [List.filter_cons_of_neg (by simp [hi]), hc]
      | some nm =>
        have hi : ingestable f = true := by simp [ingestable, ht, hn]
        have hc : (condStep proj tag t g f).resourceRels =
            if (g.projects proj).isSome then
              upsertOne (nm, proj) (fun n => ⟨tag, n⟩)
                RelAttrs.firstseen t g.resourceRels
            else g.resourceRels := by
          unfold condStep
          rw [ht, if_pos rfl, queryStepFn_resourceRels, hn]
        rw [List.filter_cons_of_pos (by simp [hi]), hc]
        have hk : fnKeyOf f = nm := by simp [fnKeyOf, hn]
        cases hp : (g.projects proj).isSome <;>
          simp [hp, upsertFold, hk]
    · have ht2 : truthyRegion f.region = false := by simpa using ht
      have hi : ingestable f = false := by simp [ingestable, ht2]
      have hc : condStep proj tag t g f = g := by
        unfold condStep; rw [ht2]; simp
      rw [List.filter_cons_of_neg (by simp [hi]), hc]

theorem foldCond_serviceAccounts (td : List TransFunc) (proj : String)
    (tag t : Nat) (g : GGraph) :
    (td.foldl (condStep proj tag t) g).serviceAccounts =
      if (g.projects proj).isSome then
        upsertFold saKeyOf (fun r n => ⟨saKeyOf r, tag, n⟩)
          SAttrs.firstseen t (td.filter ingestableSA)
          g.serviceAccounts
      else g.serviceAccounts := by
  induction td generalizing g with
  | nil => cases hp : (g.projects proj).isSome <;> simp [hp, upsertFold]
  | cons f rest ih =>
    rw [List.foldl_cons, ih, condStep_projects]
    by_cases ht : truthyRegion f.region = true
    · cases hn : f.raw.name with
      | none =>
        have hi : ingestableSA f = false := by
          simp [ingestableSA, ingestable, hn]
        have hc : condStep proj tag t g f = g := by
          unfold condStep queryStepFn
          rw [ht, if_pos rfl, hn]
        rw [List.filter_cons_of_neg (by simp [hi]), hc]
      | some nm =>
        cases he : f.raw.serviceAccountEmail with
        | none =>
          have hi : ingestableSA f = false := by
            simp [ingestableSA, he]
          have hc : (condStep proj tag t g f).serviceAccounts =
              g.serviceAccounts := by
            unfold condStep
            rw [ht, if_pos rfl, queryStepFn_serviceAccounts, hn]
            rw [he]
            cases hp : (g.projects proj).isSome <;> simp [hp]
          rw [List.filter_cons_of_neg (by simp [hi]), hc]
        | some em =>
          have hi : ingestableSA f = true := by
            simp [ingestableSA, ingestable, ht, hn, he]
          have hc : (condStep proj tag t g f).serviceAccounts =
              if (g.projects proj).isSome then
                upsertOne em (fun n => ⟨em, tag, n⟩) SAttrs.firstseen t
                  g.serviceAccounts
              else g.serviceAccounts := by
            unfold condStep
            rw [ht, if_pos rfl, queryStepFn_serviceAccounts, hn, he]
          rw [List.filter_cons_of_pos (by simp [hi]), hc]
          have hk : saKeyOf f = em := by simp [saKeyOf, he]
          cases hp : (g.projects proj).isSome <;>
            simp [hp, upsertFold, hk]
    · have ht2 : truthyRegion f.region = false := by simpa using ht
      have hi : ingestableSA f = false := by
        simp [ingestableSA, ingestable, ht2]
      have hc : condStep proj tag t g f = g := by
        unfold condStep; rw [ht2]; simp
      rw [List.filter_cons_of_neg (by simp [hi]), hc]

theorem foldCond_runsAsRels (td : List TransFunc) (proj : String)
    (tag t : Nat) (g : GGraph) :
    (td.foldl (condStep proj tag t) g).runsAsRels =
      if (g.projects proj).isSome then
        upsertFold (fun r => (fnKeyOf r, saKeyOf r))
          (fun _ n => ⟨tag, n⟩) RelAttrs.firstseen t
          (td.filter ingestableSA) g.runsAsRels
      else g.runsAsRels := by
  induction td generalizing g with
  | nil => cases hp : (g.projects proj).isSome <;> simp [hp, upsertFold]
  | cons f rest ih =>
    rw [List.foldl_cons, ih, condStep_projects]
    by_cases ht : truthyRegion f.region = true
    · cases hn : f.raw.name with
      | none =>
        have hi : ingestableSA f = false := by
          simp [ingestableSA, ingestable, hn]
        have hc : condStep proj tag t g f = g := by
          unfold condStep queryStepFn
          rw [ht, if_pos rfl, hn]
        rw [List.filter_cons_of_neg (by simp [hi]), hc]
      | some nm =>
        cases he : f.raw.serviceAccountEmail with
        | none =>
          have hi : ingestableSA f = false := by
            simp [ingestableSA, he]
          have hc : (condStep proj tag t g f).runsAsRels =
              g.runsAsRels := by
            unfold condStep
            rw [ht, if_pos rfl, queryStepFn_runsAsRels, hn, he]
            cases hp : (g.projects proj).isSome <;> simp [hp]
          rw [List.filter_cons_of_neg (by simp [hi]), hc]
        | some em =>
          have hi : ingestableSA f = true := by
            simp [ingestableSA, ingestable, ht, hn, he]
          have hc : (condStep proj tag t g f).runsAsRels =
              if (g.projects proj).isSome then
                upsertOne (nm, em) (fun n => ⟨tag, n⟩)
                  RelAttrs.firstseen t g.runsAsRels
              else g.runsAsRels := by
            unfold condStep
            rw [ht, if_pos rfl, queryStepFn_runsAsRels, hn, he]
          rw [List.filter_cons_of_pos (by simp [hi]), hc]
          have hk1 : fnKeyOf f = nm := by simp [fnKeyOf, hn]
          have hk2 : saKeyOf f = em := by simp [saKeyOf, he]
          cases hp : (g.projects proj).isSome <;>
            simp [hp, upsertFold, hk1, hk2]
    · have ht2 : truthyRegion f.region = false := by simpa using ht
      have hi : ingestableSA f = false := by
        simp [ingestableSA, ingestable, ht2]
      have hc : condStep proj tag t g f = g := by
        unfold condStep; rw [ht2]; simp
      rw [List.filter_cons_of_neg (by simp [hi]), hc]

/-! ## Lemmas: shape and idempotency of the bucket load -/

theorem load_gcp_buckets_normal (bs : List BucketOut) (proj : String)
    (tag t : Nat) (g : BGraph) :
    load_gcp_buckets bs proj tag t g =
      { buckets :=
          upsertFold (fun b => b.id) (fun b => mkBktAttrs proj tag b)
            BktAttrs.firstseen t bs g.buckets
        labels :=
          upsertFold (fun l => l.id) (fun l => mkLblAttrs tag l)
            LblAttrs.firstseen t (allLabels bs) g.labels
        bucketProjRels :=
          upsertFold (fun b => (b.id, proj)) (fun _ n => ⟨tag, n⟩)
            RelAttrs.firstseen t bs g.bucketProjRels
        labelProjRels :=
          upsertFold (fun l => (l.id, proj)) (fun _ n => ⟨tag, n⟩)
            RelAttrs.firstseen t (allLabels bs) g.labelProjRels
        labeledRels :=
          upsertFold (fun p => p) (fun _ n => ⟨tag, n⟩)
            RelAttrs.firstseen t
            (bs.flatMap
              (fun b => b.label_ids.map (fun l => (b.id, l))))
            g.labeledRels } := by
  unfold load_gcp_buckets load_gcp_buckets_ops
  by_cases h : allLabels bs = []
  · rw [h]
    simp only [ne_eq, not_true_eq_false, if_false, List.nil_append,
      List.foldl_cons, List.foldl_nil]
    apply BGraph_eq_of_parts <;> simp [applyBOp, h, upsertFold]
  · rw [if_pos h]
    simp only [List.cons_append, List.nil_append, List.foldl_cons,
      List.foldl_nil]
    apply BGraph_eq_of_parts <;> simp [applyBOp]

theorem load_gcp_buckets_idem (bs : List BucketOut) (proj : String)
    (tag t1 t2 : Nat) (g : BGraph) :
    load_gcp_buckets bs proj tag t2
        (load_gcp_buckets bs proj tag t1 g) =
      load_gcp_buckets bs proj tag t1 g := by
  rw [load_gcp_buckets_normal, load_gcp_buckets_normal]
  apply BGraph_eq_of_parts <;>
    exact upsertFold_idem _ _ _ (fun a n => rfl) t1 t2 _ _

/-! ## Lemmas: idempotency of the function load -/

theorem load_gcp_cloud_functions_idem (td : List TransFunc)
    (proj : String) (tag t1 t2 : Nat) (g : GGraph) :
    load_gcp_cloud_functions td proj tag t2
        (load_gcp_cloud_functions td proj tag t1 g) =
      load_gcp_cloud_functions td proj tag t1 g := by
  rw [load_gcp_cloud_functions_eq_fold,
    load_gcp_cloud_functions_eq_fold]
  apply GGraph_eq_of_parts
  · rw [foldCond_functions, foldCond_functions]
    exact upsertFold_idem _ _ _ (fun a n => rfl) t1 t2 _ _
  · rw [foldCond_projects, foldCond_projects]
  · rw [foldCond_serviceAccounts, foldCond_serviceAccounts,
      foldCond_projects]
    cases hp : (g.projects proj).isSome with
    | true =>
      simp only [if_true]
      exact upsertFold_idem _ _ _ (fun a n => rfl) t1 t2 _ _
    | false => simp only [Bool.false_eq_true, if_false]
  · rw [foldCond_resourceRels, foldCond_resourceRels,
      foldCond_projects]
    cases hp : (g.projects proj).isSome with
    | true =>
      simp only [if_true]
      exact upsertFold_idem _ _ _ (fun a n => rfl) t1 t2 _ _
    | false => simp only [Bool.false_eq_true, if_false]
  · rw [foldCond_runsAsRels, foldCond_runsAsRels,
      foldCond_projects]
    cases hp : (g.projects proj).isSome with
    | true =>
      simp only [if_true]
      exact upsertFold_idem _ _ _ (fun a n => rfl) t1 t2 _ _
    | false => simp only [Bool.false_eq_true, if_false]

/-! ## Lemmas: the region sort -/

instance : IsTotal TransFunc leByRegion := by
  constructor
  intro a b
  unfold leByRegion leRegion
  cases a.region with
  | none => left; rfl
  | some x =>
    cases b.region with
    | none => right; rfl
    | some y =>
      rcases le_total x y with h | h
      · left; simpa using h
      · right; simpa using h

instance : IsTrans TransFunc leByRegion := by
  constructor
  intro a b c hab hbc
  unfold leByRegion leRegion at hab hbc ⊢
  cases ha : a.region with
  | none => rfl
  | some x =>
    rw [ha] at hab
    cases hb : b.region with
    | none => rw [hb] at hab; exact absurd hab (by simp)
    | some y =>
      rw [hb] at hab hbc
      cases hc : c.region with
      | none => rw [hc] at hbc; exact absurd hbc (by simp)
      | some z =>
        rw [hc] at hbc
        have hxy : x ≤ y := by simpa using hab
        have hyz : y ≤ z := by simpa using hbc
        simpa using hxy.trans hyz

/-! ## Helpers for concrete inputs and Except projections -/

/-- A raw function record carrying only a name. -/
def fnNamed (nm : String) : GCPFunction :=
  { name := some nm
    displayName := none
    description := none
    state := none
    runtime := none
    entryPoint := none
    createTime := none
    updateTime := none
    serviceAccountEmail := none
    httpsTrigger := none
    eventTrigger := none }

/-- Did the embedded call return normally? -/
def exceptIsOk {ε α : Type} : Except ε α → Bool
  | .ok _ => true
  | .error _ => false

/-- The length of a normally-returned list, `none` on an exception. -/
def exceptLength {ε α : Type} : Except ε (List α) → Option Nat
  | .ok l => some l.length
  | .error _ => none

/-- `all_labels` accumulates exactly the concatenation of every
bucket's flattened labels, in bucket order. -/
theorem allLabels_eq_flatMap (bs : List BucketOut) :
    allLabels bs = bs.flatMap (fun b => b.labels) := by
  have h : ∀ (l : List BucketOut) (acc : List LabelOut),
      l.foldl (fun acc b => acc ++ b.labels) acc =
        acc ++ l.flatMap (fun b => b.labels) := by
    intro l
    induction l with
    | nil => intro acc; simp
    | cons b rest ih => intro acc; simp [ih]
  simpa using h bs []

/-! ## Claim C8 -/

/-- C8: each collector follows the continuation token through every
page of the listing operation and returns the concatenation of all
pages' records, in page order, as one sequence produced only after the
last page was fetched. -/
theorem collectors_concatenate_pages_in_order :
    ∀ (fps : List FnPage) (bps : List BktPage),
      get_gcp_cloud_functions (.ok fps) =
        .ok ((fps.map fnPageRecords).flatten) ∧
      get_gcp_buckets (.ok bps) =
        .ok ((bps.map bktPageRecords).flatten) := by
  intro fps bps
  constructor
  · simp [get_gcp_cloud_functions, collectFnPages_eq]
  · simp [get_gcp_buckets, collectBktPages_eq]

/-! ## Claim C7 -/

/-- C7: `load_gcp_buckets` writes all derived label records of every
bucket in a distinct pass that precedes the bucket-node pass: whenever
any bucket has a label, the op sequence is exactly the label write
followed by the bucket write, and the label pass contains every
bucket's every label. -/
theorem label_pass_precedes_bucket_pass :
    ∀ (bs : List BucketOut) (b : BucketOut) (l : LabelOut),
      b ∈ bs → l ∈ b.labels →
      load_gcp_buckets_ops bs =
        [.writeLabels (allLabels bs), .writeBuckets bs] ∧
      l ∈ allLabels bs := by
  intro bs b l hb hl
  have hmem : l ∈ allLabels bs := by
    rw [allLabels_eq_flatMap]
    exact List.mem_flatMap.mpr ⟨b, hb, hl⟩
  have hne : allLabels bs ≠ [] := by
    intro h
    rw [h] at hmem
    exact absurd hmem (List.not_mem_nil l)
  constructor
  · unfold load_gcp_buckets_ops
    rw [if_pos hne]
    rfl
  · exact hmem

/-- A bucket-label pair used to witness C7. -/
def w7label : LabelOut :=
  { id := "bkt_env", key := "env", value := "prod"
    bucket_id := "bkt", project_number := "9999" }

/-- A normalized bucket record with one label, used to witness C7. -/
def w7bucket : BucketOut :=
  { id := "bkt", project_number := "9999"
    etag := none, owner_entity := none, owner_entity_id := none
    kind := none, location := none, location_type := none
    meta_generation := none, self_link := none, storage_class := none
    time_created := none, updated := none, versioning_enabled := none
    default_event_based_hold := none, retention_period := none
    default_kms_key_name := none, log_bucket := none
    requester_pays := none, iam_config_bucket_policy_only := none
    labels := [w7label], label_ids := ["bkt_env"] }

theorem label_pass_precedes_bucket_pass_witness :
    w7bucket ∈ [w7bucket] ∧ w7label ∈ w7bucket.labels ∧
    load_gcp_buckets_ops [w7bucket] =
      [.writeLabels (allLabels [w7bucket]), .writeBuckets [w7bucket]] ∧
    w7label ∈ allLabels [w7bucket] := by
  refine ⟨List.mem_singleton.mpr rfl, by simp [w7bucket, w7label], ?_⟩
  exact label_pass_precedes_bucket_pass [w7bucket] w7bucket w7label
    (List.mem_singleton.mpr rfl) (by simp [w7bucket, w7label])

/-! ## Claim C6 -/

/-- C6: running collect → transform → upsert a second time with the
same input records and the same run tag (at any later write clock)
leaves the graph of the first run unchanged: node set, relationship
set, attributes and tags all coincide, for the Cloud Functions
connector and for the Storage Buckets connector alike. -/
theorem collect_transform_upsert_idempotent :
    ∀ (fps : List FnPage) (fraw : List GCPFunction)
      (td : List TransFunc) (bps : List BktPage)
      (braw : List GCPBucket) (bd : List BucketOut) (proj : String)
      (tag t1 t2 : Nat) (g : GGraph) (bg : BGraph),
      (get_gcp_cloud_functions (.ok fps) = .ok fraw →
        transform_gcp_cloud_functions fraw = .ok td →
        load_gcp_cloud_functions td proj tag t2
            (load_gcp_cloud_functions td proj tag t1 g) =
          load_gcp_cloud_functions td proj tag t1 g) ∧
      (get_gcp_buckets (.ok bps) = .ok braw →
        transform_gcp_buckets braw = .ok bd →
        load_gcp_buckets bd proj tag t2
            (load_gcp_buckets bd proj tag t1 bg) =
          load_gcp_buckets bd proj tag t1 bg) := by
  intro fps fraw td bps braw bd proj tag t1 t2 g bg
  constructor
  · intro _ _
    exact load_gcp_cloud_functions_idem td proj tag t1 t2 g
  · intro _ _
    exact load_gcp_buckets_idem bd proj tag t1 t2 bg

/-! ## Claim C5 -/

/-- A well-formed record for the C5 counterexample. -/
def c5good : GCPFunction :=
  fnNamed "projects/p/locations/us-central1/functions/good"

/-- A record with an unparsable identity key for the C5
counterexample. -/
def c5bad : GCPFunction := fnNamed "badname"

/-- C5 counterexample: a sync invocation whose collection succeeds
(returns two records) but in which the cleanup phase is never executed,
because the transform raises `TypeError` on the mixed batch first.  This
refutes the claim that cleanup runs in every invocation that does not
raise during collection. -/
theorem cleanup_skipped_after_successful_collection :
    get_gcp_cloud_functions (.ok [⟨some [c5good, c5bad]⟩]) =
      .ok [c5good, c5bad] ∧
    (gcfSync (.ok [⟨some [c5good, c5bad]⟩]) emptyGGraph "p" 1 1).1 =
      [Phase.collect] ∧
    Phase.cleanup ∉
      (gcfSync (.ok [⟨some [c5good, c5bad]⟩]) emptyGGraph "p" 1 1).1 ∧
    (gcfSync (.ok [⟨some [c5good, c5bad]⟩]) emptyGGraph "p" 1 1).2 =
      .error (.py .typeError) := by
  refine ⟨rfl, rfl, ?_, rfl⟩
  intro h
  have h2 :
      (gcfSync (.ok [⟨some [c5good, c5bad]⟩]) emptyGGraph "p" 1 1).1 =
        [Phase.collect] := rfl
  rw [h2] at h
  simp at h

/-- C5 (amended): in every sync invocation in which collection,
transform and upsert all complete (in particular whenever the collector
returned zero records), the cleanup phase is executed: the
empty-collection path skips only transform and upsert, never cleanup.
Holds for both connectors. -/
theorem cleanup_runs_when_pipeline_succeeds :
    ∀ (fapi : Except HttpErr (List FnPage)) (g : GGraph)
      (proj : String) (tag t : Nat)
      (bapi : Except HttpErr (List BktPage)) (bg : BGraph),
      (exceptIsOk (gcfSync fapi g proj tag t).2 = true →
        Phase.cleanup ∈ (gcfSync fapi g proj tag t).1) ∧
      (get_gcp_cloud_functions fapi = .ok [] →
        (gcfSync fapi g proj tag t).1 = [Phase.collect, Phase.cleanup]) ∧
      (exceptIsOk (bktSync bapi bg proj tag t).2 = true →
        Phase.cleanup ∈ (bktSync bapi bg proj tag t).1) ∧
      (get_gcp_buckets bapi = .ok [] →
        (bktSync bapi bg proj tag t).1 =
          [Phase.collect, Phase.cleanup]) := by
  intro fapi g proj tag t bapi bg
  refine ⟨?_, ?_, ?_, ?_⟩
  · intro h
    cases hg : get_gcp_cloud_functions fapi with
    | error e => simp [gcfSync, hg, exceptIsOk] at h
    | ok data =>
      by_cases hd : data.isEmpty
      · simp [gcfSync, hg, hd]
      · cases htr : transform_gcp_cloud_functions data with
        | error e => simp [gcfSync, hg, hd, htr, exceptIsOk] at h
        | ok td => simp [gcfSync, hg, hd, htr]
  · intro h
    simp [gcfSync, h]
  · intro h
    cases hg : get_gcp_buckets bapi with
    | error e => simp [bktSync, hg, exceptIsOk] at h
    | ok data =>
      by_cases hd : data.isEmpty
      · simp [bktSync, hg, hd]
      · cases htr : transform_gcp_buckets data with
        | error e => simp [bktSync, hg, hd, htr, exceptIsOk] at h
        | ok td => simp [bktSync, hg, hd, htr]
  · intro h
    simp [bktSync, h]

theorem cleanup_runs_when_pipeline_succeeds_witness :
    exceptIsOk (gcfSync (.ok []) emptyGGraph "p" 1 1).2 = true ∧
    Phase.cleanup ∈ (gcfSync (.ok []) emptyGGraph "p" 1 1).1 ∧
    get_gcp_cloud_functions (.ok []) = .ok [] ∧
    (gcfSync (.ok []) emptyGGraph "p" 1 1).1 =
      [Phase.collect, Phase.cleanup] ∧
    exceptIsOk (bktSync (.ok []) emptyBGraph "p" 1 1).2 = true ∧
    Phase.cleanup ∈ (bktSync (.ok []) emptyBGraph "p" 1 1).1 ∧
    get_gcp_buckets (.ok []) = .ok [] ∧
    (bktSync (.ok []) emptyBGraph "p" 1 1).1 =
      [Phase.collect, Phase.cleanup] := by
  have c := cleanup_runs_when_pipeline_succeeds (.ok []) emptyGGraph
    "p" 1 1 (.ok []) emptyBGraph
  exact ⟨rfl, c.1 rfl, rfl, c.2.1 rfl, rfl, c.2.2.1 rfl, rfl,
    c.2.2.2 rfl⟩

/-! ## Claim C1 -/

/-- The function record loaded by the first run of the C1 scenario. -/
def c1fn : GCPFunction :=
  fnNamed "projects/p/locations/us-central1/functions/f1"

/-- The API behavior of the first run: one page, one function. -/
def c1api1 : Except HttpErr (List FnPage) := .ok [⟨some [c1fn]⟩]

/-- The first sync run of the C1 scenario (tag 100, clock 10). -/
def c1run1 : List Phase × Except SyncErr GGraph :=
  gcfSync c1api1 emptyGGraph "p" 100 10

/-- The graph after the first run. -/
def c1g1 : GGraph :=
  match c1run1.2 with
  | .ok g => g
  | .error _ => emptyGGraph

/-- The permission-denied `HttpError` the API raises on the second
run. -/
def c1permErr : HttpErr :=
  { status := "PERMISSION_DENIED"
    message := some "The caller does not have permission"
    respStatus := 403 }

/-- The second sync run of the C1 scenario (tag 200, clock 20), during
which the listing call fails with permission denied. -/
def c1run2 : List Phase × Except SyncErr GGraph :=
  gcfSync (.error c1permErr) c1g1 "p" 200 20

/-- The graph after the second run. -/
def c1g2 : GGraph :=
  match c1run2.2 with
  | .ok g => g
  | .error _ => emptyGGraph

/-- C1: evaluating the code on the claim's scenario.  The first run
loads a function node.  On the second run the collector classifies the
permission-denied error and returns an empty list instead of raising,
so the sync falls through to cleanup, which deletes the node loaded in
the first run (its tag 100 differs from the current tag 200) — exactly
the empty-result sweep the claim requires the code to avoid. -/
theorem permission_denied_second_run_sweeps_loaded_nodes :
    (c1g1.functions
      "projects/p/locations/us-central1/functions/f1").isSome = true ∧
    get_gcp_cloud_functions (.error c1permErr) = .ok [] ∧
    c1run2.1 = [Phase.collect, Phase.cleanup] ∧
    c1g2.functions
      "projects/p/locations/us-central1/functions/f1" = none := by
  exact ⟨rfl, rfl, rfl, rfl⟩

/-! ## Claim C4 -/

/-- A Not Found error: HTTP 404, status string not permission-related,
message without the API-disabled marker. -/
def c4err : HttpErr :=
  { status := "NOT_FOUND"
    message := some "The specified bucket does not exist."
    respStatus := 404 }

/-- C4 counterexample: on a Not Found listing failure the Cloud
Functions collector propagates the error (it has no 404 branch), while
the Storage Buckets collector returns an empty list — so the claim
"every resource type's collector returns an empty sequence on Not
Found" is false. -/
theorem not_found_propagates_for_functions :
    get_gcp_cloud_functions (.error c4err) = .error c4err ∧
    get_gcp_buckets (.error c4err) = .ok [] := by
  exact ⟨rfl, rfl⟩

/-- C4 (amended): on a Not Found listing failure (HTTP 404 not
classified as permission/API-disabled), only `get_gcp_buckets` returns
an empty sequence without propagating; `get_gcp_cloud_functions`
re-raises the error. -/
theorem not_found_classification_diverges :
    ∀ e : HttpErr, isPermissionOrApiDisabled e = false →
      e.respStatus = 404 →
      get_gcp_buckets (.error e) = .ok [] ∧
      get_gcp_cloud_functions (.error e) = .error e := by
  intro e h1 h2
  constructor
  · simp [get_gcp_buckets, h1, h2]
  · simp [get_gcp_cloud_functions, h1]

/-- A message-free 404 error used to witness the amended C4. -/
def c4werr : HttpErr :=
  { status := "NOT_FOUND", message := none, respStatus := 404 }

theorem not_found_classification_diverges_witness :
    isPermissionOrApiDisabled c4werr = false ∧
    c4werr.respStatus = 404 ∧
    (get_gcp_buckets (.error c4werr) = .ok [] ∧
      get_gcp_cloud_functions (.error c4werr) = .error c4werr) :=
  ⟨rfl, rfl, not_found_classification_diverges c4werr rfl rfl⟩

/-! ## Claim C2 -/

/-- A record whose identity key has no partition segment, for the C2
counterexample. -/
def c2mal : GCPFunction := fnNamed "flat"

/-- C2 counterexample: a record whose identity key cannot be decomposed
is assigned the fallback partition `None`, not `"global"`, and the
loader does not upsert it: after loading the transformed record into an
empty graph, no node exists under its identity key. -/
theorem malformed_record_gets_none_and_is_dropped :
    transform_gcp_cloud_functions [c2mal] = .ok [addFields c2mal] ∧
    (addFields c2mal).region = none ∧
    (addFields c2mal).region ≠ some "global" ∧
    (load_gcp_cloud_functions [addFields c2mal] "p" 7 3
      emptyGGraph).functions "flat" = none := by
  refine ⟨rfl, rfl, ?_, rfl⟩
  intro h
  exact Option.noConfusion ((rfl :
    (addFields c2mal).region = none) ▸ h)

/-- C2 (amended): a record whose identity key cannot be decomposed into
a partition component is assigned the fallback partition `None` (not
`"global"`), and the loader skips records with a falsy partition, so
the record is dropped from the load rather than upserted (and a batch
of two or more records containing it raises before loading at all). -/
theorem malformed_record_dropped_under_none_fallback :
    ∀ (f : GCPFunction) (g : GGraph) (proj : String) (tag t : Nat),
      regionOfName f.name = none →
      transform_gcp_cloud_functions [f] = .ok [addFields f] ∧
      (addFields f).region = none ∧
      load_gcp_cloud_functions [addFields f] proj tag t g = g := by
  intro f g proj tag t h
  have hr : (addFields f).region = none := by simp [addFields, h]
  refine ⟨rfl, hr, ?_⟩
  simp [load_gcp_cloud_functions, groupRuns, runGroup, hr,
    truthyRegion]

/-- A malformed singleton used to witness the amended C2. -/
def c2wit : GCPFunction := fnNamed "solo"

theorem malformed_record_dropped_witness :
    regionOfName c2wit.name = none ∧
    (transform_gcp_cloud_functions [c2wit] = .ok [addFields c2wit] ∧
      (addFields c2wit).region = none ∧
      load_gcp_cloud_functions [addFields c2wit] "p" 5 2 emptyGGraph =
        emptyGGraph) :=
  ⟨rfl,
    malformed_record_dropped_under_none_fallback c2wit emptyGGraph
      "p" 5 2 rfl⟩

/-! ## Claim C3 -/

/-- A well-formed record for the C3 failing input. -/
def c3good : GCPFunction :=
  fnNamed "projects/p/locations/us-east1/functions/ok1"

/-- A record with an unparsable identity key for the C3 failing
input. -/
def c3bad : GCPFunction := fnNamed "oops"

/-- C3: evaluating the code on the failing input.  On a list mixing a
well-formed record with a malformed one, the per-record recovery
assigns region `None` to the malformed record, but the subsequent
`functions.sort(key=itemgetter('region'))` compares `None` against a
string and raises `TypeError`: the transform is not total and the whole
batch is aborted. -/
theorem transform_raises_on_mixed_batch :
    transform_gcp_cloud_functions [c3good, c3bad] =
      .error .typeError ∧
    regionOfName c3good.name = some "us-east1" ∧
    regionOfName c3bad.name = none := ⟨rfl, rfl, rfl⟩

/-! ## Claim C9 -/

/-- A well-formed record for the C9 counterexample. -/
def c9good : GCPFunction :=
  fnNamed "projects/q/locations/europe-west1/functions/w"

/-- A malformed record for the C9 counterexample. -/
def c9bad : GCPFunction := fnNamed "malformed"

/-- C9 counterexample: `transform_gcp_cloud_functions` does not return
the input list updated and reordered on every input — on a list mixing
a well-formed record with one whose identity key is unparsable, it
raises `TypeError` instead of returning. -/
theorem transform_update_and_reorder_counterexample :
    transform_gcp_cloud_functions [c9good, c9bad] =
      .error .typeError := rfl

/-- C9 (amended): on any input list with at most one record or in which
every record's name parses to a region, the transform returns normally;
the result carries exactly the input records (none added or removed),
each extended with the four keys `https_trigger_url`,
`event_trigger_type`, `event_trigger_resource` and `region` (each
`None` when the corresponding nested path is absent), stably reordered
by region.  On other lists the sort raises `TypeError` (the in-place
mutation of the Python list is not observable in this embedding; its
functional content is what is stated). -/
theorem transform_adds_fields_and_reorders :
    ∀ fs : List GCPFunction,
      (decide (fs.length ≤ 1) ||
        fs.all (fun f => (regionOfName f.name).isSome)) = true →
      transform_gcp_cloud_functions fs =
        .ok ((fs.map addFields).insertionSort leByRegion) ∧
      ((fs.map addFields).insertionSort leByRegion).Perm
        (fs.map addFields) ∧
      List.Sorted leByRegion
        ((fs.map addFields).insertionSort leByRegion) := by
  intro fs h
  have hguard :
      (2 ≤ (fs.map addFields).length &&
        (fs.map addFields).any (fun r => r.region.isNone)) = false := by
    simp only [Bool.or_eq_true, decide_eq_true_eq, List.all_eq_true]
      at h
    cases h with
    | inl hl =>
      apply Bool.and_eq_false_iff.mpr
      left
      simp only [List.length_map, decide_eq_false_iff_not]
      omega
    | inr ha =>
      apply Bool.and_eq_false_iff.mpr
      right
      simp only [List.any_eq_false, List.mem_map]
      rintro r ⟨f, hf, rfl⟩
      have := ha f hf
      simp [addFields, Option.isNone_iff_eq_none]
      exact Option.isSome_iff_exists.mp this |>.elim
        (fun a ha2 => by simp [ha2])
  refine ⟨?_, List.perm_insertionSort _ _,
    List.sorted_insertionSort _ _⟩
  unfold transform_gcp_cloud_functions
  simp only [hguard, Bool.false_eq_true, if_false]

/-- Two well-formed records whose regions are out of order, used to
witness the amended C9. -/
def c9w1 : GCPFunction :=
  fnNamed "projects/a/locations/zzz/functions/one"

/-- See `c9w1`. -/
def c9w2 : GCPFunction :=
  fnNamed "projects/a/locations/aaa/functions/two"

theorem transform_adds_fields_and_reorders_witness :
    (decide ([c9w1, c9w2].length ≤ 1) ||
      [c9w1, c9w2].all (fun f => (regionOfName f.name).isSome)) =
      true ∧
    (transform_gcp_cloud_functions [c9w1, c9w2] =
      .ok (([c9w1, c9w2].map addFields).insertionSort leByRegion) ∧
    (([c9w1, c9w2].map addFields).insertionSort leByRegion).Perm
      ([c9w1, c9w2].map addFields) ∧
    List.Sorted leByRegion
      (([c9w1, c9w2].map addFields).insertionSort leByRegion)) :=
  ⟨rfl, transform_adds_fields_and_reorders [c9w1, c9w2] rfl⟩

/-! ## Claim C10 -/

theorem transform_gcp_buckets_ok_length (bs : List GCPBucket)
    (h : bs.all bucketKeysOk = true) :
    exceptLength (transform_gcp_buckets bs) = some bs.length := by
  induction bs with
  | nil => rfl
  | cons b rest ih =>
    simp only [List.all_cons, Bool.and_eq_true] at h
    obtain ⟨hb, hrest⟩ := h
    have hks := hb
    unfold bucketKeysOk at hks
    rw [Bool.and_eq_true] at hks
    obtain ⟨i, hi⟩ := Option.isSome_iff_exists.mp hks.1
    obtain ⟨pn, hpn⟩ := Option.isSome_iff_exists.mp hks.2
    have hr := ih hrest
    cases htr : transform_gcp_buckets rest with
    | error e => rw [htr] at hr; simp [exceptLength] at hr
    | ok out =>
      rw [htr] at hr
      simp only [exceptLength, Option.some_inj] at hr
      unfold transform_gcp_buckets transformBucket
      rw [hi, hpn, htr]
      simp [exceptLength, hr]

theorem transform_gcp_buckets_keyerror (bs : List GCPBucket)
    (h : bs.all bucketKeysOk = false) :
    transform_gcp_buckets bs = .error .keyError := by
  induction bs with
  | nil => simp at h
  | cons b rest ih =>
    by_cases hb : bucketKeysOk b = true
    · have hrest : rest.all bucketKeysOk = false := by
        simpa [List.all_cons, hb] using h
      have hks := hb
      unfold bucketKeysOk at hks
      rw [Bool.and_eq_true] at hks
      obtain ⟨i, hi⟩ := Option.isSome_iff_exists.mp hks.1
      obtain ⟨pn, hpn⟩ := Option.isSome_iff_exists.mp hks.2
      unfold transform_gcp_buckets transformBucket
      rw [hi, hpn, ih hrest]
    · have hb2 : bucketKeysOk b = false := by simpa using hb
      unfold bucketKeysOk at hb2
      unfold transform_gcp_buckets transformBucket
      cases hi : b.id with
      | none => cases hpn : b.projectNumber <;> simp [hi, hpn]
      | some i =>
        cases hpn : b.projectNumber with
        | none => simp [hi, hpn]
        | some pn => rw [hi, hpn] at hb2; simp at hb2

/-- C10: `transform_gcp_buckets` is all-or-nothing on the subscripted
keys: when every input record carries both `id` and `projectNumber` it
returns normally with exactly one normalized record per input record;
when any record lacks either key it raises `KeyError`, aborting the
whole batch including the well-formed records. -/
theorem bucket_transform_all_or_nothing :
    ∀ bs : List GCPBucket,
      (bs.all bucketKeysOk = true →
        exceptLength (transform_gcp_buckets bs) = some bs.length) ∧
      (bs.all bucketKeysOk = false →
        transform_gcp_buckets bs = .error .keyError) :=
  fun bs =>
    ⟨transform_gcp_buckets_ok_length bs,
      transform_gcp_buckets_keyerror bs⟩

/-- A bucket record with both required keys, for the C10 witness. -/
def c10good : GCPBucket :=
  { id := some "bname", projectNumber := some "9999"
    labels := [("team", "infra")]
    etag := none, owner := none, kind := none, location := none
    locationType := none, metageneration := none, selfLink := none
    storageClass := none, timeCreated := none, updated := none
    versioningEnabled := none, defaultEventBasedHold := none
    retentionPeriod := none, defaultKmsKeyName := none
    logBucket := none, requesterPays := none
    iamConfiguration := none }

/-- A bucket record missing the `id` key, for the C10 witness. -/
def c10bad : GCPBucket :=
  { id := none, projectNumber := some "9999"
    labels := []
    etag := none, owner := none, kind := none, location := none
    locationType := none, metageneration := none, selfLink := none
    storageClass := none, timeCreated := none, updated := none
    versioningEnabled := none, defaultEventBasedHold := none
    retentionPeriod := none, defaultKmsKeyName := none
    logBucket := none, requesterPays := none
    iamConfiguration := none }

theorem bucket_transform_all_or_nothing_witness :
    ([c10good].all bucketKeysOk = true ∧
      exceptLength (transform_gcp_buckets [c10good]) = some 1) ∧
    ([c10good, c10bad].all bucketKeysOk = false ∧
      transform_gcp_buckets [c10good, c10bad] = .error .keyError) :=
  ⟨⟨rfl, (bucket_transform_all_or_nothing [c10good]).1 rfl⟩,
    ⟨rfl, (bucket_transform_all_or_nothing [c10good, c10bad]).2 rfl⟩⟩

/-- A function record used to witness C6. -/
def c6fn : GCPFunction :=
  fnNamed "projects/pw/locations/us-west1/functions/w6"

/-- A raw bucket record used to witness C6. -/
def c6rawb : GCPBucket :=
  { id := some "b6", projectNumber := some "99"
    labels := []
    etag := none, owner := none, kind := none, location := none
    locationType := none, metageneration := none, selfLink := none
    storageClass := none, timeCreated := none, updated := none
    versioningEnabled := none, defaultEventBasedHold := none
    retentionPeriod := none, defaultKmsKeyName := none
    logBucket := none, requesterPays := none
    iamConfiguration := none }

/-- The normalized form of `c6rawb`. -/
def c6tb : BucketOut :=
  { id := "b6", project_number := "99"
    etag := none, owner_entity := none, owner_entity_id := none
    kind := none, location := none, location_type := none
    meta_generation := none, self_link := none, storage_class := none
    time_created := none, updated := none, versioning_enabled := none
    default_event_based_hold := none, retention_period := none
    default_kms_key_name := none, log_bucket := none
    requester_pays := none, iam_config_bucket_policy_only := none
    labels := [], label_ids := [] }

theorem collect_transform_upsert_idempotent_witness :
    get_gcp_cloud_functions (.ok [⟨some [c6fn]⟩]) = .ok [c6fn] ∧
    transform_gcp_cloud_functions [c6fn] = .ok [addFields c6fn] ∧
    load_gcp_cloud_functions [addFields c6fn] "pw" 9 2
        (load_gcp_cloud_functions [addFields c6fn] "pw" 9 1
          emptyGGraph) =
      load_gcp_cloud_functions [addFields c6fn] "pw" 9 1 emptyGGraph ∧
    get_gcp_buckets (.ok [⟨some [c6rawb]⟩]) = .ok [c6rawb] ∧
    transform_gcp_buckets [c6rawb] = .ok [c6tb] ∧
    load_gcp_buckets [c6tb] "pw" 9 2
        (load_gcp_buckets [c6tb] "pw" 9 1 emptyBGraph) =
      load_gcp_buckets [c6tb] "pw" 9 1 emptyBGraph := by
  have c := collect_transform_upsert_idempotent [⟨some [c6fn]⟩]
    [c6fn] [addFields c6fn] [⟨some [c6rawb]⟩] [c6rawb] [c6tb]
    "pw" 9 1 2 emptyGGraph emptyBGraph
  exact ⟨rfl, rfl, c.1 rfl rfl, rfl, rfl, c.2 rfl rfl⟩
